import Mathlib

/-!
Verification of the workload-lifecycle orchestration core of agent-haymaker.

The development shallowly embeds the modules the claims refer to:

* `workloads/file_platform.py` — deployment-id sanitizer and the file-based
  State Store (`FilePlatform`), modelled as a pure map from file names to
  file contents;
* `workloads/registry.py` — the workload registry (`register_workload`,
  `get_workload`, `discover_workloads`) and the source-path guard of
  `install_from_git`;
* `workloads/base.py` — the default `start` implementation;
* `cli/lifecycle.py` — the deployment locator `_find_deployment_async`,
  with its module-level `deployment_id -> workload_name` cache made an
  explicit argument and the per-workload status queries recorded in a log.

Machine-level concerns that live outside the repository (the JSON
serializer, the real filesystem, subprocesses) are modelled by explicit
pure data: a file either holds a well-formed serialized record or opaque
malformed bytes; the outcome of the external `git clone` and `pip install`
subprocesses is a boolean parameter.
-/

namespace Haymaker

/-! ### List-of-characters helpers (Python `in`, `startswith`, `str.split`) -/

/-- Python `c in s` on the character list of a string. -/
def hasChar : List Char → Char → Bool
  | [], _ => false
  | c :: rest, x => (c == x) || hasChar rest x

/-- Boolean component-wise list-prefix test. -/
def isPrefixB : List Char → List Char → Bool
  | [], _ => true
  | _ :: _, [] => false
  | p :: ps, c :: cs => (p == c) && isPrefixB ps cs

/-- Python `pat in s`: `pat` occurs as a contiguous substring of `l`. -/
def hasSubstr : List Char → List Char → Bool
  | [], pat => pat.isEmpty
  | l@(_ :: rest), pat => isPrefixB pat l || hasSubstr rest pat

/-- Python `s.startswith(pat)`. -/
def strStarts (s pat : String) : Bool := isPrefixB pat.data s.data

/-- Python `pat in s` on strings. -/
def strContains (s pat : String) : Bool := hasSubstr s.data pat.data

/-! ### The deployment-id sanitizer (`file_platform._sanitize_deployment_id`)

`_SAFE_ID_PATTERN = re.compile(r"^[a-zA-Z0-9][a-zA-Z0-9._-]*$")`.
Python `re` gives `$` the semantics "end of string, or just before a
newline at the end of the string", so the pattern is modelled by
`pyMatchSafePattern`: either the whole string matches the character
classes, or the string ends in a single newline and the rest matches. -/

/-- Character class `[a-zA-Z0-9]` of the safe pattern. -/
def safeHeadChar (c : Char) : Bool := c.isAlphanum

/-- Character class `[a-zA-Z0-9._-]` of the safe pattern. -/
def safeTailChar (c : Char) : Bool :=
  c.isAlphanum || c == '.' || c == '_' || c == '-'

/-- Every character satisfies `safeTailChar`. -/
def allSafeTail : List Char → Bool
  | [] => true
  | c :: rest => safeTailChar c && allSafeTail rest

/-- Full anchored match of `[a-zA-Z0-9][a-zA-Z0-9._-]*` against the whole
string (the reading of `^...$` in which `$` is end-of-string only). -/
def matchesStrict (s : String) : Bool :=
  match s.data with
  | [] => false
  | c :: cs => safeHeadChar c && allSafeTail cs

/-- Remainder of a Python match of `[a-zA-Z0-9._-]*$`: a run of tail-class
characters ended either at the end of the string or at a single newline
that is the last character (Python gives `$` the semantics "end of string
or just before a newline at the end of the string"). -/
def pyTail : List Char → Bool
  | [] => true
  | c :: rest => (safeTailChar c && pyTail rest) || ((c == '\n') && rest.isEmpty)

/-- `_SAFE_ID_PATTERN.match(s)` is truthy, with Python semantics for `$`. -/
def pyMatchSafePattern (s : String) : Bool :=
  match s.data with
  | [] => false
  | c :: cs => safeHeadChar c && pyTail cs

/-- `file_platform._sanitize_deployment_id`: the guard chain of the source,
in source order (empty, path separators, `..`, safe pattern); `Except.error`
models the raised `ValueError`. -/
def _sanitize_deployment_id (deployment_id : String) : Except String String :=
  if deployment_id.data.isEmpty then
    Except.error "deployment_id must not be empty"
  else if hasChar deployment_id.data '/' || hasChar deployment_id.data '\\' then
    Except.error "deployment_id contains path separators"
  else if strContains deployment_id ".." then
    Except.error "deployment_id contains path traversal"
  else if !(pyMatchSafePattern deployment_id) then
    Except.error "deployment_id contains invalid characters"
  else
    Except.ok deployment_id

/-! ### Data model (`workloads/models.py`) -/

/-- `models.DeploymentStatus`. -/
inductive DeploymentStatus where
  | pending
  | running
  | stopped
  | completed
  | failed
  | cleaning_up
deriving DecidableEq, Repr

/-- `models.DeploymentState`. Timestamps are abstract instants (`Nat`);
the opaque `config` and `metadata` dictionaries are key/value lists. -/
structure DeploymentState where
  deployment_id : String
  workload_name : String
  status : DeploymentStatus
  phase : String := "unknown"
  started_at : Option Nat := none
  stopped_at : Option Nat := none
  completed_at : Option Nat := none
  config : List (String × String) := []
  metadata : List (String × String) := []
  error : Option String := none
deriving DecidableEq, Repr

/-! ### Association-list primitives

The Python `dict` objects (the locator cache, a manifest `package` dict,
the registry map) and the state directory are modelled as association
lists with first-match lookup; `insertAssoc` overwrites any prior binding
and `eraseAssoc` removes every binding of a key (Python `del`). -/

def lookupAssoc {β : Type} : List (String × β) → String → Option β
  | [], _ => none
  | (k, v) :: rest, key => if k = key then some v else lookupAssoc rest key

def eraseAssoc {β : Type} : List (String × β) → String → List (String × β)
  | [], _ => []
  | (k, v) :: rest, key =>
      if k = key then eraseAssoc rest key else (k, v) :: eraseAssoc rest key

def insertAssoc {β : Type} (l : List (String × β)) (key : String) (v : β) :
    List (String × β) :=
  (key, v) :: eraseAssoc l key

/-! ### The file-based State Store (`file_platform.FilePlatform`)

A file in the state directory either holds the JSON serialization of a
`DeploymentState` or malformed bytes.  The external JSON layer (pydantic)
is modelled by the tag itself: `model_dump_json` writes `good state`,
`model_validate_json` recovers exactly that state from `good state` and
raises on `bad` content. -/

/-- Content of one file of the state directory. -/
inductive FileContent where
  | good (state : DeploymentState)
  | bad (raw : String)
deriving DecidableEq, Repr

/-- `FilePlatform`: the state directory as a map from file name to content. -/
structure FilePlatform where
  files : List (String × FileContent)
deriving DecidableEq, Repr

/-- `FilePlatform._state_path`: sanitize, then address `{safe_id}.json`.
The raised `ValueError` of the sanitizer propagates. -/
def FilePlatform._state_path (deployment_id : String) : Except String String := do
  let safe_id ← _sanitize_deployment_id deployment_id
  return safe_id ++ ".json"

/-- `FilePlatform.save_deployment_state`: derive the path (which can raise),
then overwrite the file with the serialized state. -/
def FilePlatform.save_deployment_state (p : FilePlatform) (state : DeploymentState) :
    Except String FilePlatform := do
  let path ← FilePlatform._state_path state.deployment_id
  return { files := insertAssoc p.files path (FileContent.good state) }

/-- `FilePlatform.load_deployment_state`: derive the path (which can raise);
absent file gives `none`; a malformed file makes `model_validate_json`
raise, modelled as `Except.error`. -/
def FilePlatform.load_deployment_state (p : FilePlatform) (deployment_id : String) :
    Except String (Option DeploymentState) := do
  let path ← FilePlatform._state_path deployment_id
  match lookupAssoc p.files path with
  | none => return none
  | some (FileContent.good state) => return (some state)
  | some (FileContent.bad _) => Except.error "validation error while parsing state file"

/-- `FilePlatform.list_deployments`: scan every `*.json` file; a record
that fails to parse is logged and skipped; keep the states whose
`workload_name` matches. -/
def FilePlatform.list_deployments (p : FilePlatform) (workload_name : String) :
    List DeploymentState :=
  (p.files.filter (fun f => f.1.endsWith ".json")).filterMap (fun f =>
    match f.2 with
    | FileContent.good state =>
        if state.workload_name = workload_name then some state else none
    | FileContent.bad _ => none)

/-! ### The workload registry (`registry.WorkloadRegistry`)

A workload class is reduced to the data the claims observe: its `name`
class attribute.  Instantiation (`workload_class(platform=self._platform)`)
produces an instance carrying that name and the injected platform
reference; the reference is an arbitrary type `α` compared by equality.
`entryPoints` models the environment's installed entry points, i.e. what
`importlib.metadata.entry_points` would successfully load. -/

/-- A workload class: the `name` class attribute. -/
structure WorkloadClass where
  name : String
deriving DecidableEq, Repr

/-- A constructed workload instance: its `name` and injected `_platform`. -/
structure WorkloadInstance (α : Type) where
  name : String
  platform : Option α

/-- `registry.WorkloadRegistry`: injected platform, the `_workloads` map,
and the loadable entry points of the environment. -/
structure WorkloadRegistry (α : Type) where
  platform : Option α
  workloads : List (String × WorkloadClass)
  entryPoints : List (String × WorkloadClass)

/-- `WorkloadRegistry.__init__`. -/
def WorkloadRegistry.init {α : Type} (platform : Option α)
    (entryPoints : List (String × WorkloadClass)) : WorkloadRegistry α :=
  ⟨platform, [], entryPoints⟩

/-- `WorkloadRegistry.discover_workloads`: record every loadable entry
point into `_workloads` (later entries overwrite earlier bindings). -/
def WorkloadRegistry.discover_workloads {α : Type} (r : WorkloadRegistry α) :
    WorkloadRegistry α :=
  { r with
    workloads := r.entryPoints.foldl (fun ws p => insertAssoc ws p.1 p.2) r.workloads }

/-- `WorkloadRegistry.get_workload`: discover lazily when the map is empty,
then look the name up and instantiate with the injected platform; `none`
when the name is unknown. -/
def WorkloadRegistry.get_workload {α : Type} (r : WorkloadRegistry α) (name : String) :
    Option (WorkloadInstance α) :=
  let r' := if r.workloads.isEmpty then r.discover_workloads else r
  match lookupAssoc r'.workloads name with
  | some cls => some ⟨cls.name, r'.platform⟩
  | none => none

/-- `WorkloadRegistry.register_workload`: unconditional insertion. -/
def WorkloadRegistry.register_workload {α : Type} (r : WorkloadRegistry α)
    (name : String) (cls : WorkloadClass) : WorkloadRegistry α :=
  { r with workloads := insertAssoc r.workloads name cls }

/-! ### The default `start` (`base.WorkloadBase.start`)

The source raises `NotImplementedError` unconditionally; the model takes
the platform state as input so that "no persisted state is modified" is
observable: an error outcome returns no successor state at all. -/

/-- `WorkloadBase.start` default implementation: always raises. -/
def WorkloadBase.start (name : String) (_platform : FilePlatform)
    (_deployment_id : String) : Except String (Bool × FilePlatform) :=
  Except.error ("Workload " ++ name ++ " does not implement start/resume. " ++
    "Override start() to provide resume functionality.")

/-! ### The deployment locator (`lifecycle._find_deployment_async`)

The registry is observed through `list_workloads`, modelled by the list
`reg` of registered names in registry order (`get_workload n` succeeds
exactly for `n ∈ reg`).  `workload.get_status` is a pure oracle
`status : workload name → deployment id → Option DeploymentState`,
`none` modelling `DeploymentNotFoundError`.  The module-level cache is
threaded explicitly, and `queries` records each `get_status` call in
order, so "full-scan-equivalent lookups" can be counted. -/

/-- Outcome of one `_find_deployment_async` call: the resolved
`(workload name, state)` (or `none` for the raised `ClickException`), the
cache after the call, and the per-workload status queries issued. -/
structure FindResult where
  outcome : Option (String × DeploymentState)
  cache : List (String × String)
  queries : List String
deriving DecidableEq, Repr

/-- The cache-miss scan of `_find_deployment_async`: iterate the
registered workloads in order, query each for status, cache and return on
the first success. -/
def scan_workloads (status : String → String → Option DeploymentState)
    (deployment_id : String) (cache : List (String × String))
    (qs : List String) : List String → FindResult
  | [] => ⟨none, cache, qs⟩
  | n :: rest =>
      match status n deployment_id with
      | some st => ⟨some (n, st), insertAssoc cache deployment_id n, qs ++ [n]⟩
      | none => scan_workloads status deployment_id cache (qs ++ [n]) rest

/-- `lifecycle._find_deployment_async`: consult the cache first; on a hit,
ask the cached workload directly; on `DeploymentNotFoundError` evict the
stale entry and fall through to the scan; on a miss (or when the cached
workload is no longer registered) scan all workloads in registry order. -/
def find_deployment (reg : List String)
    (status : String → String → Option DeploymentState)
    (cache : List (String × String)) (deployment_id : String) : FindResult :=
  match lookupAssoc cache deployment_id with
  | some cached_name =>
      if cached_name ∈ reg then
        match status cached_name deployment_id with
        | some st => ⟨some (cached_name, st), cache, [cached_name]⟩
        | none =>
            scan_workloads status deployment_id (eraseAssoc cache deployment_id)
              [cached_name] reg
      else scan_workloads status deployment_id cache [] reg
  | none => scan_workloads status deployment_id cache [] reg

/-! ### `registry.install_from_git`

Paths are lists of components from the filesystem root.  `Path.resolve`
is modelled lexically: join against the clone directory (an absolute
`source` replaces it), drop empty and `.` components, let `..` pop one
component (staying at the root when already there).  The outcomes of the
external `git clone` and `pip install` subprocesses are boolean
parameters; `pipCalls` records each resolved path `pip install` is
invoked on. -/

/-- Split a raw source string on `/` (Python `Path` component parsing;
repeated slashes give empty components, dropped during resolution). -/
def splitSlashL : List Char → List (List Char)
  | [] => [[]]
  | c :: rest =>
      if c = '/' then [] :: splitSlashL rest
      else
        match splitSlashL rest with
        | [] => [[c]]
        | p :: ps => (c :: p) :: ps

/-- String version of `splitSlashL`. -/
def splitSlash (s : String) : List String :=
  (splitSlashL s.data).map (fun l => String.mk l)

/-- Lexical `Path.resolve` over already-split components. -/
def resolveParts (base : List String) : List String → List String
  | [] => base
  | p :: rest =>
      if p = "" || p = "." then resolveParts base rest
      else if p = ".." then resolveParts base.dropLast rest
      else resolveParts (base ++ [p]) rest

/-- `(Path(tmpdir) / source_raw).resolve()`, lexically. -/
def pyResolve (tmpdir : List String) (source_raw : String) : List String :=
  resolveParts (if strStarts source_raw "/" then [] else tmpdir) (splitSlash source_raw)

/-- Boolean component-wise path-prefix test (`Path.is_relative_to`). -/
def isPathPrefix : List String → List String → Bool
  | [], _ => true
  | _ :: _, [] => false
  | p :: ps, c :: cs => (p == c) && isPathPrefix ps cs

/-- The URL guard of `install_from_git`:
`"://" in source_raw or source_raw.startswith(("http:", "https:", "ftp:"))`. -/
def isUrlLikeSource (source_raw : String) : Bool :=
  strContains source_raw "://" || strStarts source_raw "http:" ||
    strStarts source_raw "https:" || strStarts source_raw "ftp:"

/-- The fields of `WorkloadManifest` that `install_from_git` consumes. -/
structure GitManifest where
  name : String
  package : Option (List (String × String))
deriving DecidableEq, Repr

/-- Result of `install_from_git`: the returned workload name or the raised
`ValueError`, together with every resolved path `pip install` ran on. -/
structure InstallAttempt where
  outcome : Except String String
  pipCalls : List (List String)
deriving Repr

/-- `registry.install_from_git` after the clone into `tmpdir`: `cloneOk`
is the exit status of `git clone`, `manifest` is `none` when
`workload.yaml` is missing, `pipOk` the exit status of `pip install`.
Guard order follows the source: resolve the declared source against the
clone root, reject an escape, reject a URL, only then invoke pip. -/
def install_from_git (cloneOk : Bool) (manifest : Option GitManifest)
    (tmpdir : List String) (pipOk : Bool) : InstallAttempt :=
  if !cloneOk then
    ⟨Except.error "Failed to clone repository: git returned non-zero exit code", []⟩
  else
    match manifest with
    | none => ⟨Except.error "No workload.yaml found in clone", []⟩
    | some m =>
        match m.package with
        | none => ⟨Except.ok m.name, []⟩
        | some pkg =>
            let source_raw := (lookupAssoc pkg "source").getD "."
            let source_path := pyResolve tmpdir source_raw
            if !(isPathPrefix tmpdir source_path) then
              ⟨Except.error "Manifest source path escapes the clone directory", []⟩
            else if isUrlLikeSource source_raw then
              ⟨Except.error "Manifest source must be a local path, not a URL", []⟩
            else if pipOk then
              ⟨Except.ok m.name, [source_path]⟩
            else
              ⟨Except.error "Failed to install package: pip returned non-zero exit code",
                [source_path]⟩

/-! ## Helper lemmas -/

theorem lookupAssoc_insert_self {β : Type} (l : List (String × β)) (k : String) (v : β) :
    lookupAssoc (insertAssoc l k v) k = some v := by
  simp [insertAssoc, lookupAssoc]

theorem lookupAssoc_erase_self {β : Type} (l : List (String × β)) (k : String) :
    lookupAssoc (eraseAssoc l k) k = none := by
  induction l with
  | nil => rfl
  | cons hd tl ih =>
      obtain ⟨k', v'⟩ := hd
      by_cases h : k' = k
      · simpa [eraseAssoc, h] using ih
      · simpa [eraseAssoc, lookupAssoc, h] using ih

theorem not_mem_eraseAssoc_self {β : Type} (l : List (String × β)) (k : String) (v : β) :
    (k, v) ∉ eraseAssoc l k := by
  induction l with
  | nil => simp [eraseAssoc]
  | cons hd tl ih =>
      obtain ⟨k', v'⟩ := hd
      by_cases h : k' = k
      · simpa [eraseAssoc, h] using ih
      · simp only [eraseAssoc, h, if_neg]
        intro hmem
        rcases List.mem_cons.mp hmem with heq | hmem'
        · exact h (congrArg Prod.fst heq).symm
        · exact ih hmem'

/-- The sanitizer never rewrites the identifier: an `ok` result is the input. -/
theorem sanitize_ok_identity (s t : String)
    (h : _sanitize_deployment_id s = Except.ok t) : t = s := by
  unfold _sanitize_deployment_id at h
  split at h
  · exact absurd h (by simp)
  · split at h
    · exact absurd h (by simp)
    · split at h
      · exact absurd h (by simp)
      · split at h
        · exact absurd h (by simp)
        · exact ((Except.ok.injEq _ _).mp h).symm

/-- A character that is outside both character classes and is not a
newline cannot occur in a `pyTail` run. -/
theorem pyTail_no_char (x : Char) (htail : safeTailChar x = false)
    (hnl : (x == '\n') = false) :
    ∀ l : List Char, pyTail l = true → hasChar l x = false := by
  intro l
  induction l with
  | nil => intro _; rfl
  | cons c rest ih =>
      intro h
      rw [pyTail, Bool.or_eq_true] at h
      rcases h with h | h
      · rw [Bool.and_eq_true] at h
        have hcx : (c == x) = false := by
          by_cases hcx' : c = x
          · subst hcx'; exact absurd h.1 (by simp [htail])
          · exact beq_eq_false_iff_ne.mpr hcx'
        simp [hasChar, hcx, ih h.2]
      · rw [Bool.and_eq_true] at h
        have hc : c = '\n' := beq_iff_eq.mp h.1
        have hrest : rest = [] := by simpa using h.2
        subst hc hrest
        have hnx : ('\n' == x) = false :=
          beq_eq_false_iff_ne.mpr (fun he => beq_eq_false_iff_ne.mp hnl he.symm)
        simp [hasChar, hnx]

/-- A character that is outside both character classes and is not a
newline cannot occur in an identifier accepted by the safe pattern. -/
theorem pyMatch_no_char (x : Char) (hhead : safeHeadChar x = false)
    (htail : safeTailChar x = false) (hnl : (x == '\n') = false)
    (s : String) (h : pyMatchSafePattern s = true) : hasChar s.data x = false := by
  unfold pyMatchSafePattern at h
  cases hd : s.data with
  | nil => simp [hasChar]
  | cons c cs =>
      rw [hd, Bool.and_eq_true] at h
      have hcx : (c == x) = false := by
        by_cases hcx' : c = x
        · subst hcx'; exact absurd h.1 (by simp [hhead])
        · exact beq_eq_false_iff_ne.mpr hcx'
      simp [hasChar, hcx, pyTail_no_char x htail hnl cs h.2]

/-- An accepted identifier is nonempty. -/
theorem pyMatch_ne_nil (s : String) (h : pyMatchSafePattern s = true) :
    s.data.isEmpty = false := by
  unfold pyMatchSafePattern at h
  cases hd : s.data with
  | nil => rw [hd] at h; exact absurd h (by simp)
  | cons c cs => simp

/-- Full characterization of the sanitizer: it accepts exactly the
identifiers matching the safe pattern under Python `$` semantics that do
not contain `..`. -/
theorem sanitize_ok_iff (s : String) :
    _sanitize_deployment_id s = Except.ok s ↔
      (pyMatchSafePattern s = true ∧ strContains s ".." = false) := by
  constructor
  · intro h
    unfold _sanitize_deployment_id at h
    split at h
    · exact absurd h (by simp)
    · split at h
      · exact absurd h (by simp)
      · split at h
        · exact absurd h (by simp)
        · split at h
          · exact absurd h (by simp)
          · rename_i hddot hpat
            exact ⟨by simpa using hpat, by simpa using hddot⟩
  · rintro ⟨hpat, hddot⟩
    have hslash : hasChar s.data '/' = false :=
      pyMatch_no_char '/' (by decide) (by decide) (by decide) s hpat
    have hback : hasChar s.data '\\' = false :=
      pyMatch_no_char '\\' (by decide) (by decide) (by decide) s hpat
    unfold _sanitize_deployment_id
    rw [pyMatch_ne_nil s hpat, hslash, hback, hddot, hpat]
    simp

/-- With an accepted identifier, `_state_path` addresses `{id}.json`. -/
theorem state_path_ok (deployment_id : String)
    (hok : _sanitize_deployment_id deployment_id = Except.ok deployment_id) :
    FilePlatform._state_path deployment_id = Except.ok (deployment_id ++ ".json") := by
  unfold FilePlatform._state_path
  rw [hok]
  rfl

/-- With an accepted identifier, `load_deployment_state` is the lookup of
the file `{id}.json`. -/
theorem load_eval (p : FilePlatform) (deployment_id : String)
    (hok : _sanitize_deployment_id deployment_id = Except.ok deployment_id) :
    FilePlatform.load_deployment_state p deployment_id =
      (match lookupAssoc p.files (deployment_id ++ ".json") with
       | none => Except.ok none
       | some (FileContent.good state) => Except.ok (some state)
       | some (FileContent.bad _) =>
           Except.error "validation error while parsing state file") := by
  unfold FilePlatform.load_deployment_state
  rw [state_path_ok deployment_id hok]
  rfl

/-! ## Claim theorems -/

/-- C10 (amended): the sanitizer accepts an identifier iff it matches
`^[a-zA-Z0-9][a-zA-Z0-9._-]*$` under Python match semantics, where `$`
also matches just before a single trailing newline, and it contains no
`..`; identifiers starting with a hyphen or underscore are rejected; on
the accepted domain the sanitizer is the identity. -/
theorem sanitize_accept_characterization :
    (∀ s : String,
      (_sanitize_deployment_id s = Except.ok s ↔
        (pyMatchSafePattern s = true ∧ strContains s ".." = false)) ∧
      (∀ t : String, _sanitize_deployment_id s = Except.ok t → t = s)) ∧
    _sanitize_deployment_id "-a" =
      Except.error "deployment_id contains invalid characters" ∧
    _sanitize_deployment_id "_a" =
      Except.error "deployment_id contains invalid characters" :=
  ⟨fun s => ⟨sanitize_ok_iff s, fun t h => sanitize_ok_identity s t h⟩, rfl, rfl⟩

/-- Witness for C10: the characterization applied at the accepted
identifier `"ab-1"`. -/
theorem sanitize_accept_characterization_witness :
    _sanitize_deployment_id "ab-1" = Except.ok "ab-1" ∧ ("ab-1" : String) = "ab-1" :=
  ⟨(sanitize_accept_characterization.1 "ab-1").1.mpr ⟨rfl, rfl⟩,
   (sanitize_accept_characterization.1 "ab-1").2 "ab-1"
     ((sanitize_accept_characterization.1 "ab-1").1.mpr ⟨rfl, rfl⟩) ▸ rfl⟩

/-- C10 counterexample: the claim's strict reading of the anchor `$` is
false on the code — `"ab\n"` is accepted by the sanitizer although it
does not match the pattern anchored at end-of-string. -/
theorem sanitize_strict_pattern_counterexample :
    _sanitize_deployment_id "ab\n" = Except.ok "ab\n" ∧
    matchesStrict "ab\n" = false :=
  ⟨rfl, rfl⟩

/-- C2 (code bug): the newline character is outside the safe set, yet the
sanitizer accepts `"abc\n"` (Python `$` matches before a trailing
newline), so `load` and `save` proceed to filesystem access instead of
failing with a validation error. -/
theorem sanitize_newline_bypass :
    safeHeadChar '\n' = false ∧ safeTailChar '\n' = false ∧
    _sanitize_deployment_id "abc\n" = Except.ok "abc\n" ∧
    FilePlatform.load_deployment_state ⟨[]⟩ "abc\n" = Except.ok none ∧
    FilePlatform.save_deployment_state ⟨[]⟩
        ⟨"abc\n", "w", DeploymentStatus.running, "unknown",
          none, none, none, [], [], none⟩ =
      Except.ok ⟨[("abc\n.json",
        FileContent.good ⟨"abc\n", "w", DeploymentStatus.running, "unknown",
          none, none, none, [], [], none⟩)]⟩ :=
  ⟨rfl, rfl, rfl, rfl, rfl⟩

/-- C4 counterexample: for the never-saved identifier `".."`, `load`
raises a `ValueError` instead of returning absent. -/
theorem load_invalid_identifier_raises :
    FilePlatform.load_deployment_state ⟨[]⟩ ".." =
      Except.error "deployment_id contains path traversal" :=
  rfl

/-- C4 (amended): for every sanitizer-accepted identifier with no record
stored under its derived path, `load_deployment_state` returns absent,
never an error. -/
theorem load_never_saved_returns_none (p : FilePlatform) (deployment_id : String)
    (hok : _sanitize_deployment_id deployment_id = Except.ok deployment_id)
    (habsent : lookupAssoc p.files (deployment_id ++ ".json") = none) :
    FilePlatform.load_deployment_state p deployment_id = Except.ok none := by
  rw [load_eval p deployment_id hok, habsent]

/-- Witness for C4: loading the never-saved identifier `"never-saved"`
from an empty store. -/
theorem load_never_saved_returns_none_witness :
    FilePlatform.load_deployment_state ⟨[]⟩ "never-saved" = Except.ok none :=
  load_never_saved_returns_none ⟨[]⟩ "never-saved" rfl rfl

/-- C3: for every state whose identifier the sanitizer accepts, `save`
succeeds, a subsequent `load` of the same identifier returns a
field-for-field equal state, and the saved record has replaced every
prior record under that identifier. -/
theorem save_then_load_roundtrip (p : FilePlatform) (st : DeploymentState)
    (hok : _sanitize_deployment_id st.deployment_id = Except.ok st.deployment_id) :
    ∃ p' : FilePlatform,
      FilePlatform.save_deployment_state p st = Except.ok p' ∧
      FilePlatform.load_deployment_state p' st.deployment_id = Except.ok (some st) ∧
      ∀ c : FileContent,
        (st.deployment_id ++ ".json", c) ∈ p'.files → c = FileContent.good st := by
  refine ⟨⟨insertAssoc p.files (st.deployment_id ++ ".json") (FileContent.good st)⟩,
    ?_, ?_, ?_⟩
  · unfold FilePlatform.save_deployment_state
    rw [state_path_ok st.deployment_id hok]
    rfl
  · rw [load_eval _ st.deployment_id hok]
    rw [lookupAssoc_insert_self]
  · intro c hmem
    rcases List.mem_cons.mp hmem with heq | hmem'
    · exact congrArg Prod.snd heq
    · exact absurd hmem' (not_mem_eraseAssoc_self _ _ _)

/-- Witness for C3: round trip of a concrete state through an empty store. -/
theorem save_then_load_roundtrip_witness :
    ∃ p' : FilePlatform,
      FilePlatform.save_deployment_state ⟨[]⟩
          ⟨"dep-1", "w", DeploymentStatus.pending, "unknown",
            none, none, none, [], [], none⟩ = Except.ok p' ∧
      FilePlatform.load_deployment_state p' "dep-1" =
        Except.ok (some ⟨"dep-1", "w", DeploymentStatus.pending, "unknown",
          none, none, none, [], [], none⟩) ∧
      ∀ c : FileContent, ("dep-1" ++ ".json", c) ∈ p'.files →
        c = FileContent.good ⟨"dep-1", "w", DeploymentStatus.pending, "unknown",
          none, none, none, [], [], none⟩ :=
  save_then_load_roundtrip ⟨[]⟩ _ rfl

/-- C5: `list_deployments` returns exactly the parseable saved records
whose `workload_name` matches, and a malformed record is skipped without
aborting the scan. -/
theorem list_deployments_exact (p : FilePlatform) (w : String) :
    (∀ s : DeploymentState,
        s ∈ FilePlatform.list_deployments p w ↔
          ∃ path : String, (path, FileContent.good s) ∈ p.files ∧
            path.endsWith ".json" = true ∧ s.workload_name = w) ∧
    (∀ (path raw : String) (rest : List (String × FileContent)),
        FilePlatform.list_deployments ⟨(path, FileContent.bad raw) :: rest⟩ w =
          FilePlatform.list_deployments ⟨rest⟩ w) := by
  constructor
  · intro s
    unfold FilePlatform.list_deployments
    rw [List.mem_filterMap]
    constructor
    · rintro ⟨f, hf, hmap⟩
      obtain ⟨path, content⟩ := f
      rcases List.mem_filter.mp hf with ⟨hmem, hjson⟩
      cases content with
      | bad raw => exact absurd hmap (by simp)
      | good st =>
          by_cases hw : st.workload_name = w
          · have hst : st = s := by simpa [hw] using hmap
            subst hst
            exact ⟨path, hmem, hjson, hw⟩
          · exact absurd hmap (by simp [hw])
    · rintro ⟨path, hmem, hjson, hw⟩
      exact ⟨(path, FileContent.good s), List.mem_filter.mpr ⟨hmem, hjson⟩, by simp [hw]⟩
  · intro path raw rest
    unfold FilePlatform.list_deployments
    by_cases hj : path.endsWith ".json" = true
    · simp [List.filter_cons, hj, List.filterMap_cons]
    · simp [List.filter_cons, hj]

/-- Erasure cannot create a binding: a key absent before `eraseAssoc` is
absent after it. -/
theorem lookupAssoc_erase_none {β : Type} (l : List (String × β)) (k n : String)
    (h : lookupAssoc l n = none) : lookupAssoc (eraseAssoc l k) n = none := by
  induction l with
  | nil => rfl
  | cons hd tl ih =>
      obtain ⟨k', v'⟩ := hd
      have hkn : ¬ k' = n := by
        intro hkn
        rw [lookupAssoc, if_pos hkn] at h
        exact absurd h (by simp)
      have htl : lookupAssoc tl n = none := by
        rw [lookupAssoc, if_neg hkn] at h
        exact h
      by_cases hk' : k' = k
      · simpa [eraseAssoc, hk'] using ih htl
      · simp [eraseAssoc, hk', lookupAssoc, hkn, ih htl]

/-- A key absent from the accumulator and from the discovered entry
points stays absent after the discovery fold. -/
theorem lookupAssoc_foldl_insert_none {β : Type} (eps : List (String × β)) (n : String) :
    ∀ ws : List (String × β), lookupAssoc ws n = none → lookupAssoc eps n = none →
      lookupAssoc (eps.foldl (fun ws p => insertAssoc ws p.1 p.2) ws) n = none := by
  induction eps with
  | nil =>
      intro ws h _
      simpa using h
  | cons hd tl ih =>
      intro ws hws heps
      obtain ⟨k, v⟩ := hd
      have hk : ¬ k = n := by
        intro hkn
        rw [lookupAssoc, if_pos hkn] at heps
        exact absurd heps (by simp)
      have htl : lookupAssoc tl n = none := by
        rw [lookupAssoc, if_neg hk] at heps
        exact heps
      refine ih (insertAssoc ws k v) ?_ htl
      rw [insertAssoc, lookupAssoc, if_neg hk]
      exact lookupAssoc_erase_none ws k n hws

/-- C8: registering a class declaring name `n` under `n` and then asking
for `n` yields an instance whose `name` is `n` and whose injected
platform is the reference passed to the registry constructor; a name that
is neither registered nor discoverable yields `none`, not an error. -/
theorem register_then_get :
    (∀ (α : Type) (plat : Option α) (eps : List (String × WorkloadClass))
        (n : String) (cls : WorkloadClass), cls.name = n →
      WorkloadRegistry.get_workload
          (WorkloadRegistry.register_workload (WorkloadRegistry.init plat eps) n cls) n =
        some ⟨n, plat⟩) ∧
    (∀ (α : Type) (r : WorkloadRegistry α) (n : String),
      lookupAssoc r.workloads n = none → lookupAssoc r.entryPoints n = none →
      WorkloadRegistry.get_workload r n = none) := by
  constructor
  · intro α plat eps n cls hname
    subst hname
    simp [WorkloadRegistry.get_workload, WorkloadRegistry.register_workload,
      WorkloadRegistry.init, insertAssoc, eraseAssoc, lookupAssoc]
  · intro α r n hws heps
    by_cases he : r.workloads.isEmpty
    · have h1 : lookupAssoc r.discover_workloads.workloads n = none := by
        unfold WorkloadRegistry.discover_workloads
        exact lookupAssoc_foldl_insert_none r.entryPoints n r.workloads hws heps
      simp [WorkloadRegistry.get_workload, he, h1]
    · simp [WorkloadRegistry.get_workload, he, hws]

/-- Witness for C8: a concrete registry over `Nat` platform references. -/
theorem register_then_get_witness :
    WorkloadRegistry.get_workload
        (WorkloadRegistry.register_workload
          (WorkloadRegistry.init (some (7 : Nat)) []) "w" ⟨"w"⟩) "w" =
      some ⟨"w", some 7⟩ ∧
    WorkloadRegistry.get_workload (WorkloadRegistry.init (some (7 : Nat)) []) "v" = none :=
  ⟨register_then_get.1 Nat (some 7) [] "w" ⟨"w"⟩ rfl,
   register_then_get.2 Nat (WorkloadRegistry.init (some 7) []) "v" rfl rfl⟩

/-- C9: the default `start` of the workload contract always reports the
unsupported-operation signal naming the workload; it never returns
success, so no deployment is created and no persisted state is touched
under any identifier. -/
theorem start_default_unsupported (name : String) (p : FilePlatform)
    (deployment_id : String) :
    WorkloadBase.start name p deployment_id =
      Except.error ("Workload " ++ name ++ " does not implement start/resume. " ++
        "Override start() to provide resume functionality.") :=
  rfl

/-- A scan over workloads that all report not-found resolves nothing,
leaves the cache unchanged, and queries every workload in order. -/
theorem scan_all_none (status : String → String → Option DeploymentState)
    (dep : String) :
    ∀ (l : List String) (cache : List (String × String)) (qs : List String),
      (∀ n, n ∈ l → status n dep = none) →
      scan_workloads status dep cache qs l = ⟨none, cache, qs ++ l⟩ := by
  intro l
  induction l with
  | nil =>
      intro cache qs _
      simp [scan_workloads]
  | cons n rest ih =>
      intro cache qs hnone
      have hn : status n dep = none := hnone n (List.mem_cons_self n rest)
      simp only [scan_workloads, hn]
      rw [ih cache (qs ++ [n]) (fun m hm => hnone m (List.mem_cons_of_mem n hm))]
      simp

/-- A successful scan returns a scanned workload, the state its status
query reports, and caches the mapping. -/
theorem scan_outcome_some (status : String → String → Option DeploymentState)
    (dep : String) :
    ∀ (l : List String) (cache : List (String × String)) (qs : List String)
      (w : String) (st : DeploymentState),
      (scan_workloads status dep cache qs l).outcome = some (w, st) →
      status w dep = some st ∧ w ∈ l ∧
        (scan_workloads status dep cache qs l).cache = insertAssoc cache dep w := by
  intro l
  induction l with
  | nil =>
      intro cache qs w st h
      exact absurd h (by simp [scan_workloads])
  | cons n rest ih =>
      intro cache qs w st h
      cases hs : status n dep with
      | some st' =>
          simp only [scan_workloads, hs] at h
          simp only [Option.some.injEq, Prod.mk.injEq] at h
          obtain ⟨hw, hst⟩ := h
          subst hw
          subst hst
          exact ⟨hs, List.mem_cons_self _ _, by simp [scan_workloads, hs]⟩
      | none =>
          simp only [scan_workloads, hs] at h
          obtain ⟨h1, h2, h3⟩ := ih cache (qs ++ [n]) w st h
          exact ⟨h1, List.mem_cons_of_mem n h2, by simp only [scan_workloads, hs]; exact h3⟩

/-- If some scanned workload recognizes the identifier, the scan succeeds. -/
theorem scan_outcome_isSome (status : String → String → Option DeploymentState)
    (dep : String) :
    ∀ (l : List String) (cache : List (String × String)) (qs : List String),
      (∃ n, n ∈ l ∧ (status n dep).isSome = true) →
      (scan_workloads status dep cache qs l).outcome.isSome = true := by
  intro l
  induction l with
  | nil =>
      rintro cache qs ⟨n, hn, _⟩
      exact absurd hn (by simp)
  | cons m rest ih =>
      rintro cache qs ⟨n, hn, hsome⟩
      cases hs : status m dep with
      | some st => simp [scan_workloads, hs]
      | none =>
          simp only [scan_workloads, hs]
          apply ih
          rcases List.mem_cons.mp hn with heq | hmem
          · subst heq
            rw [hs] at hsome
            exact absurd hsome (by simp)
          · exact ⟨n, hmem, hsome⟩

/-- Postcondition of a successful resolution: the returned workload is
registered, its status query reports the returned state, and the cache
after the call maps the identifier to that workload. -/
theorem find_outcome_some (reg : List String)
    (status : String → String → Option DeploymentState)
    (cache : List (String × String)) (dep w : String) (st : DeploymentState)
    (h : (find_deployment reg status cache dep).outcome = some (w, st)) :
    status w dep = some st ∧ w ∈ reg ∧
      lookupAssoc (find_deployment reg status cache dep).cache dep = some w := by
  unfold find_deployment at h ⊢
  cases hc : lookupAssoc cache dep with
  | none =>
      simp only [hc] at h ⊢
      obtain ⟨h1, h2, h3⟩ := scan_outcome_some status dep reg cache [] w st h
      exact ⟨h1, h2, by rw [h3]; exact lookupAssoc_insert_self _ _ _⟩
  | some c =>
      simp only [hc] at h ⊢
      by_cases hin : c ∈ reg
      · rw [if_pos hin] at h ⊢
        cases hs : status c dep with
        | some st' =>
            simp only [hs, Option.some.injEq, Prod.mk.injEq] at h ⊢
            obtain ⟨hw, hst⟩ := h
            subst hw
            subst hst
            exact ⟨hs, hin, hc⟩
        | none =>
            simp only [hs] at h ⊢
            obtain ⟨h1, h2, h3⟩ :=
              scan_outcome_some status dep reg (eraseAssoc cache dep) [c] w st h
            exact ⟨h1, h2, by rw [h3]; exact lookupAssoc_insert_self _ _ _⟩
      · rw [if_neg hin] at h ⊢
        obtain ⟨h1, h2, h3⟩ := scan_outcome_some status dep reg cache [] w st h
        exact ⟨h1, h2, by rw [h3]; exact lookupAssoc_insert_self _ _ _⟩

/-- If some registered workload recognizes the identifier, resolution
succeeds. -/
theorem find_outcome_isSome (reg : List String)
    (status : String → String → Option DeploymentState)
    (cache : List (String × String)) (dep : String)
    (h : ∃ n, n ∈ reg ∧ (status n dep).isSome = true) :
    (find_deployment reg status cache dep).outcome.isSome = true := by
  unfold find_deployment
  cases hc : lookupAssoc cache dep with
  | none =>
      simp only [hc]
      exact scan_outcome_isSome status dep reg cache [] h
  | some c =>
      simp only [hc]
      by_cases hin : c ∈ reg
      · rw [if_pos hin]
        cases hs : status c dep with
        | some st => simp [hs]
        | none =>
            simp only [hs]
            exact scan_outcome_isSome status dep reg (eraseAssoc cache dep) [c] h
      · rw [if_neg hin]
        exact scan_outcome_isSome status dep reg cache [] h

/-- A warm, valid cache entry is served directly: one status query, to
the cached workload, and the cache is untouched. -/
theorem find_cache_hit (reg : List String)
    (status : String → String → Option DeploymentState)
    (cache : List (String × String)) (dep w : String) (st : DeploymentState)
    (hc : lookupAssoc cache dep = some w) (hin : w ∈ reg)
    (hs : status w dep = some st) :
    find_deployment reg status cache dep = ⟨some (w, st), cache, [w]⟩ := by
  unfold find_deployment
  simp only [hc]
  rw [if_pos hin]
  simp only [hs]

/-- C6: when some registered workload owns the deployment, the first
resolution succeeds and the second resolution is serviced entirely by
the cache — it issues exactly one status query, to the cached workload,
and returns the same workload and state with the cache unchanged. -/
theorem locator_second_resolution_cached (reg : List String)
    (status : String → String → Option DeploymentState)
    (cache : List (String × String)) (dep : String)
    (h : ∃ n, n ∈ reg ∧ (status n dep).isSome = true) :
    ∃ (w : String) (st : DeploymentState),
      (find_deployment reg status cache dep).outcome = some (w, st) ∧
      find_deployment reg status (find_deployment reg status cache dep).cache dep =
        ⟨some (w, st), (find_deployment reg status cache dep).cache, [w]⟩ := by
  have hsome := find_outcome_isSome reg status cache dep h
  obtain ⟨⟨w, st⟩, hout⟩ := Option.isSome_iff_exists.mp hsome
  obtain ⟨h1, h2, h3⟩ := find_outcome_some reg status cache dep w st hout
  exact ⟨w, st, hout, find_cache_hit reg status _ dep w st h3 h2 h1⟩

/-- Witness for C6: one registered workload owning deployment `"d1"`. -/
theorem locator_second_resolution_cached_witness :
    ∃ (w : String) (st : DeploymentState),
      (find_deployment ["w1"]
          (fun n _ => if n = "w1" then
            some ⟨"d1", "w1", DeploymentStatus.running, "unknown",
              none, none, none, [], [], none⟩ else none) [] "d1").outcome =
        some (w, st) ∧
      find_deployment ["w1"]
          (fun n _ => if n = "w1" then
            some ⟨"d1", "w1", DeploymentStatus.running, "unknown",
              none, none, none, [], [], none⟩ else none)
          (find_deployment ["w1"]
            (fun n _ => if n = "w1" then
              some ⟨"d1", "w1", DeploymentStatus.running, "unknown",
                none, none, none, [], [], none⟩ else none) [] "d1").cache "d1" =
        ⟨some (w, st),
          (find_deployment ["w1"]
            (fun n _ => if n = "w1" then
              some ⟨"d1", "w1", DeploymentStatus.running, "unknown",
                none, none, none, [], [], none⟩ else none) [] "d1").cache, [w]⟩ :=
  locator_second_resolution_cached ["w1"] _ [] "d1"
    ⟨"w1", List.mem_cons_self _ _, rfl⟩

/-- C7: when the cached workload reports not-found, the locator evicts
the entry and falls back to a full scan in registry order (the query log
is the cached workload followed by every registered workload); when no
workload recognizes the identifier the resolution fails with not-found
and the evicted entry is not re-cached. -/
theorem locator_stale_cache_eviction (reg : List String)
    (status : String → String → Option DeploymentState)
    (cache : List (String × String)) (dep w : String)
    (hc : lookupAssoc cache dep = some w) (hin : w ∈ reg)
    (hnone : ∀ n, n ∈ reg → status n dep = none) :
    find_deployment reg status cache dep =
      ⟨none, eraseAssoc cache dep, w :: reg⟩ ∧
    lookupAssoc (eraseAssoc cache dep) dep = none := by
  constructor
  · unfold find_deployment
    simp only [hc]
    rw [if_pos hin]
    simp only [hnone w hin]
    rw [scan_all_none status dep reg (eraseAssoc cache dep) [w] hnone]
    rfl
  · exact lookupAssoc_erase_self cache dep

/-- Witness for C7: a stale cache entry for a deleted deployment. -/
theorem locator_stale_cache_eviction_witness :
    find_deployment ["w1"] (fun _ _ => none) [("d1", "w1")] "d1" =
      ⟨none, eraseAssoc [("d1", "w1")] "d1", ["w1", "w1"]⟩ ∧
    lookupAssoc (eraseAssoc [("d1", "w1")] "d1") "d1" = none :=
  locator_stale_cache_eviction ["w1"] (fun _ _ => none) [("d1", "w1")] "d1" "w1"
    rfl (List.mem_cons_self _ _) (fun _ _ => rfl)

/-- A path is a prefix of itself extended by further components. -/
theorem isPathPrefix_self_append (t l : List String) : isPathPrefix t (t ++ l) = true := by
  induction t with
  | nil => rfl
  | cons p ps ih => simp [isPathPrefix, ih]

/-- Path-prefix is reflexive. -/
theorem isPathPrefix_refl (t : List String) : isPathPrefix t t = true := by
  simpa using isPathPrefix_self_append t []

/-- A path prefix is no longer than the whole path. -/
theorem isPathPrefix_length_le (a : List String) :
    ∀ b : List String, isPathPrefix a b = true → a.length ≤ b.length := by
  induction a with
  | nil => intro b _; simp
  | cons p ps ih =>
      intro b h
      cases b with
      | nil => exact absurd h (by simp [isPathPrefix])
      | cons q qs =>
          rw [isPathPrefix, Bool.and_eq_true] at h
          simpa [List.length_cons] using Nat.succ_le_succ (ih qs h.2)

/-- A path prefix of the same length is the whole path. -/
theorem isPathPrefix_eq_of_length (a : List String) :
    ∀ b : List String, isPathPrefix a b = true → a.length = b.length → a = b := by
  induction a with
  | nil =>
      intro b _ hlen
      cases b with
      | nil => rfl
      | cons q qs => simp at hlen
  | cons p ps ih =>
      intro b h hlen
      cases b with
      | nil => simp at hlen
      | cons q qs =>
          rw [isPathPrefix, Bool.and_eq_true] at h
          rw [beq_iff_eq.mp h.1, ih qs h.2 (by simpa using hlen)]

/-- Splitting a slash-free component list leaves it whole. -/
theorem splitSlashL_no_slash (l : List Char) (h : hasChar l '/' = false) :
    splitSlashL l = [l] := by
  induction l with
  | nil => rfl
  | cons c cs ih =>
      rw [hasChar] at h
      have h1 : (c == '/') = false := by
        cases hcc : (c == '/') with
        | false => rfl
        | true => rw [hcc] at h; exact absurd h (by simp)
      have h2 : hasChar cs '/' = false := by
        rw [h1] at h
        simpa using h
      have hc : ¬ c = '/' := by simpa using h1
      simp only [splitSlashL, if_neg hc, ih h2]

/-- A slash-free source string is a single path component. -/
theorem splitSlash_no_slash (s : String) (h : hasChar s.data '/' = false) :
    splitSlash s = [s] := by
  unfold splitSlash
  rw [splitSlashL_no_slash s.data h]
  rfl

/-- A string whose characters avoid `/` does not start with `/`. -/
theorem isPrefixB_slash_false (l : List Char) (h : hasChar l '/' = false) :
    isPrefixB ['/'] l = false := by
  cases l with
  | nil => rfl
  | cons c cs =>
      rw [hasChar] at h
      have h1 : (c == '/') = false := by
        cases hcc : (c == '/') with
        | false => rfl
        | true => rw [hcc] at h; exact absurd h (by simp)
      have h2 : ('/' == c) = false :=
        beq_eq_false_iff_ne.mpr (fun he => beq_eq_false_iff_ne.mp h1 he.symm)
      simp [isPrefixB, h2]

/-- A slash-free single component resolves to a direct subdirectory of
the clone root. -/
theorem pyResolve_component (tmpdir : List String) (sub : String)
    (h0 : ¬ sub = "") (h1 : ¬ sub = ".") (h2 : ¬ sub = "..")
    (hs : hasChar sub.data '/' = false) :
    pyResolve tmpdir sub = tmpdir ++ [sub] := by
  unfold pyResolve strStarts
  have hstart : isPrefixB "/".data sub.data = false := isPrefixB_slash_false sub.data hs
  rw [hstart, splitSlash_no_slash sub hs]
  simp [resolveParts, h0, h1, h2]

/-- With a successful clone and a manifest declaring `source`, the
install reduces to the three-way guard on the resolved path. -/
theorem install_step_eval (tmpdir : List String) (mname raw : String) (pipOk : Bool) :
    install_from_git true (some ⟨mname, some [("source", raw)]⟩) tmpdir pipOk =
      (if !(isPathPrefix tmpdir (pyResolve tmpdir raw)) then
        ⟨Except.error "Manifest source path escapes the clone directory", []⟩
      else if isUrlLikeSource raw then
        ⟨Except.error "Manifest source must be a local path, not a URL", []⟩
      else if pipOk then
        ⟨Except.ok mname, [pyResolve tmpdir raw]⟩
      else
        ⟨Except.error "Failed to install package: pip returned non-zero exit code",
          [pyResolve tmpdir raw]⟩) :=
  rfl

/-- When a guard trips (escape or URL), the install fails and pip is not
invoked. -/
theorem install_guard_blocks (tmpdir : List String) (mname raw : String) (pipOk : Bool)
    (h : isPathPrefix tmpdir (pyResolve tmpdir raw) = false ∨ isUrlLikeSource raw = true) :
    (install_from_git true (some ⟨mname, some [("source", raw)]⟩) tmpdir pipOk).pipCalls
        = [] ∧
    ∃ msg, (install_from_git true (some ⟨mname, some [("source", raw)]⟩)
        tmpdir pipOk).outcome = Except.error msg := by
  rw [install_step_eval]
  rcases h with hp | hu
  · rw [hp]
    exact ⟨rfl, "Manifest source path escapes the clone directory", rfl⟩
  · cases hp2 : isPathPrefix tmpdir (pyResolve tmpdir raw) with
    | false =>
        exact ⟨rfl, "Manifest source path escapes the clone directory", rfl⟩
    | true =>
        rw [hu]
        exact ⟨rfl, "Manifest source must be a local path, not a URL", rfl⟩

/-- C1: with a successful clone and a manifest declaring a package, pip
is invoked exactly once on the resolved path iff the declared source
resolves inside the clone root and is not a URL; `"../evil"`, `"/etc"`,
`"https://x/y"` and `"ftp://x/y"` fail with an installation error and no
pip invocation; `"."` and a true subdirectory succeed with exactly one
pip invocation on the resolved path.  The hypotheses reflect that the
clone root is a `TemporaryDirectory` (a nested path never named
`evil`). -/
theorem install_source_guard (tmpdir : List String) (mname : String) (pipOk : Bool)
    (hlen : 2 ≤ tmpdir.length) (hlast : tmpdir.getLast? ≠ some "evil") :
    (∀ raw : String,
      (install_from_git true (some ⟨mname, some [("source", raw)]⟩)
            tmpdir pipOk).pipCalls = [pyResolve tmpdir raw] ↔
        (isPathPrefix tmpdir (pyResolve tmpdir raw) = true ∧
          isUrlLikeSource raw = false)) ∧
    (∀ raw : String,
      isPathPrefix tmpdir (pyResolve tmpdir raw) = false ∨ isUrlLikeSource raw = true →
        (install_from_git true (some ⟨mname, some [("source", raw)]⟩)
            tmpdir pipOk).pipCalls = [] ∧
        ∃ msg, (install_from_git true (some ⟨mname, some [("source", raw)]⟩)
            tmpdir pipOk).outcome = Except.error msg) ∧
    (∀ raw : String,
      raw ∈ (["../evil", "/etc", "https://x/y", "ftp://x/y"] : List String) →
        (install_from_git true (some ⟨mname, some [("source", raw)]⟩)
            tmpdir pipOk).pipCalls = [] ∧
        ∃ msg, (install_from_git true (some ⟨mname, some [("source", raw)]⟩)
            tmpdir pipOk).outcome = Except.error msg) ∧
    install_from_git true (some ⟨mname, some [("source", ".")]⟩) tmpdir true =
      ⟨Except.ok mname, [tmpdir]⟩ ∧
    (∀ sub : String, ¬ sub = "" → ¬ sub = "." → ¬ sub = ".." →
      hasChar sub.data '/' = false → isUrlLikeSource sub = false →
      install_from_git true (some ⟨mname, some [("source", sub)]⟩) tmpdir true =
        ⟨Except.ok mname, [tmpdir ++ [sub]]⟩) := by
  have h1 : (1 : Nat) ≤ tmpdir.length := le_trans (by norm_num) hlen
  have hevil : isPathPrefix tmpdir (pyResolve tmpdir "../evil") = false := by
    cases hpp : isPathPrefix tmpdir (pyResolve tmpdir "../evil") with
    | false => rfl
    | true =>
        exfalso
        have hp2 : isPathPrefix tmpdir (tmpdir.dropLast ++ ["evil"]) = true := hpp
        have hlen2 : tmpdir.length = (tmpdir.dropLast ++ ["evil"]).length := by
          simp [List.length_append, List.length_dropLast, Nat.sub_add_cancel h1]
        have heq := isPathPrefix_eq_of_length tmpdir _ hp2 hlen2
        have hfin : tmpdir.getLast? = some "evil" := by
          rw [heq, List.getLast?_append_cons]
          rfl
        exact hlast hfin
  have hetc : isPathPrefix tmpdir (pyResolve tmpdir "/etc") = false := by
    cases hpp : isPathPrefix tmpdir (pyResolve tmpdir "/etc") with
    | false => rfl
    | true =>
        exfalso
        have hle := isPathPrefix_length_le tmpdir _ hpp
        rw [show pyResolve tmpdir "/etc" = ["etc"] from rfl] at hle
        simp at hle
        omega
  refine ⟨?_, ?_, ?_, ?_, ?_⟩
  · intro raw
    rw [install_step_eval]
    cases hp : isPathPrefix tmpdir (pyResolve tmpdir raw) with
    | false => simp
    | true =>
        cases hu : isUrlLikeSource raw with
        | false => cases pipOk <;> simp
        | true => simp
  · intro raw h
    exact install_guard_blocks tmpdir mname raw pipOk h
  · intro raw hmem
    simp only [List.mem_cons, List.not_mem_nil, or_false] at hmem
    rcases hmem with rfl | rfl | rfl | rfl
    · exact install_guard_blocks tmpdir mname _ pipOk (Or.inl hevil)
    · exact install_guard_blocks tmpdir mname _ pipOk (Or.inl hetc)
    · exact install_guard_blocks tmpdir mname _ pipOk (Or.inr rfl)
    · exact install_guard_blocks tmpdir mname _ pipOk (Or.inr rfl)
  · rw [install_step_eval]
    rw [show pyResolve tmpdir "." = tmpdir from rfl, isPathPrefix_refl]
    rfl
  · intro sub h0 hdot hddot hs hurl
    rw [install_step_eval, pyResolve_component tmpdir sub h0 hdot hddot hs]
    rw [isPathPrefix_self_append, hurl]
    rfl

/-- Witness for C1: a concrete clone root `/tmp/clone0`: the `"../evil"`
source fails with no pip invocation, the `"."` source succeeds with one
pip invocation on the clone root itself. -/
theorem install_source_guard_witness :
    (install_from_git true (some ⟨"wl", some [("source", "../evil")]⟩)
        ["tmp", "clone0"] true).pipCalls = [] ∧
    (∃ msg, (install_from_git true (some ⟨"wl", some [("source", "../evil")]⟩)
        ["tmp", "clone0"] true).outcome = Except.error msg) ∧
    install_from_git true (some ⟨"wl", some [("source", ".")]⟩) ["tmp", "clone0"] true =
      ⟨Except.ok "wl", [["tmp", "clone0"]]⟩ := by
  have T := install_source_guard ["tmp", "clone0"] "wl" true (by decide) (by decide)
  exact ⟨(T.2.2.1 "../evil" (by simp)).1, (T.2.2.1 "../evil" (by simp)).2, T.2.2.2.1⟩

end Haymaker
